import Mathlib

/-!
# The `$alooma` provider of `angular-alooma.js`

A shallow embedding of the provider defined in `src/angular-alooma.js`:
the three closure variables, the get-or-set accessors, `init`,
`waitTillAsyncApiLoaded`, `callAloomaFn` and `$get`.

The external analytics library is a collaborator that the provider only
calls into.  Its functions are opaque: a function value is an identifier
with the properties set on it, and an interpretation `Ext` says what a call of
it returns (or throws) and how it changes the page.  Every call the provider makes into the library is recorded
in an event log, as is every invocation of a readiness callback; pending
`setTimeout` entries are kept in a queue.
-/

namespace Alooma

/-! ## Values -/

/-- JavaScript values as far as the provider can tell them apart.  Numbers
are integers or `NaN`.  An object is the list of the properties a read on it
finds, whether its own or reached through its prototype chain, first match
first, every other name reading `undefined`.  A function is a function of
the library, known by an identifier, with the list of the properties a read
on it finds before it reaches `Function.prototype`: its own and those of a
prototype put in between.  Values are trees: two places in a value never
hold one and the same object. -/
inductive Val where
  | undefined
  | null
  | bool (b : Bool)
  | num (n : Int)
  | nan
  | str (s : String)
  | fn (id : Nat) (props : List (String × Val))
  | obj (props : List (String × Val))

/-- What a `throw` carries: a thrown value, or one of the two built-in
errors the provider's own code can raise. -/
inductive Thrown where
  | value (v : Val)
  | typeError
  | referenceError

/-- JavaScript truthiness (`ToBoolean`), as used by `if (!key)`. -/
def truthy : Val → Bool
  | .undefined => false
  | .null => false
  | .bool b => b
  | .num n => n != 0
  | .nan => false
  | .str s => s != ""
  | .fn _ _ => true
  | .obj _ => true

/-- The test `v === undefined`. -/
def isUndefined : Val → Bool
  | .undefined => true
  | _ => false

/-- Property read `v[k]`: a `TypeError` on `undefined` and `null`, the value
found on an object or a function, `undefined` for a name the value does not
carry.  What a function inherits from `Function.prototype` is not among its
listed properties; the one such name the provider reads is `apply`, and
`readApply` reads it. -/
def getProp : Val → String → Except Thrown Val
  | .undefined, _ => .error .typeError
  | .null, _ => .error .typeError
  | .obj props, k => .ok ((props.lookup k).getD .undefined)
  | .fn _ props, k => .ok ((props.lookup k).getD .undefined)
  | _, _ => .ok .undefined

/-- What the read `fn.apply` finds: the built-in `Function.prototype.apply`,
or some other value. -/
inductive Found where
  | builtinApply
  | value (v : Val)

/-- The read `fn.apply` of line 65: a `TypeError` on `undefined` and `null`;
on a function the listed `apply` if there is one, which shadows the built-in,
and the built-in otherwise; on any other value whatever an ordinary read
gives. -/
def readApply : Val → Except Thrown Found
  | .undefined => .error .typeError
  | .null => .error .typeError
  | .fn _ props =>
    match props.lookup "apply" with
    | some v => .ok (.value v)
    | none => .ok .builtinApply
  | .obj props => .ok (.value ((props.lookup "apply").getD .undefined))
  | _ => .ok (.value .undefined)

/-- Worker of `split`: `cur` holds the characters of the segment being read,
last one first. -/
def splitAux : List Char → List Char → List String
  | [], cur => [String.mk cur.reverse]
  | c :: cs, cur =>
    if c = '.' then String.mk cur.reverse :: splitAux cs [] else splitAux cs (c :: cur)

/-- The call `name.split('.')`. -/
def split (name : String) : List String :=
  splitAux name.data []

/-! ## The page, the log and the provider's state -/

/-- The part of the page the provider depends on: whether `window` has an own
property `alooma` and its value, and the rest of what the library's functions
can see and change. -/
structure Page where
  alooma : Option Val
  hidden : Nat

/-- The outcome of a call of a library function: what it returns or throws
and the page it leaves. -/
structure ExtResult where
  result : Except Thrown Val
  page : Page

/-- An interpretation of the library's functions: the function's identifier,
the `this` value, the arguments and the page at the time of the call give the
outcome. -/
abbrev Ext := Nat → Val → List Val → Page → ExtResult

/-- An observable step: a call into the library, made through the property
path `path` below `alooma`, of function `fn` with `this` and `args`; or an
invocation of a readiness callback. -/
inductive Event (κ : Type) where
  | call (path : List String) (fn : Nat) (this : Val) (args : List Val)
  | callback (k : κ)

/-- A pending `setTimeout(function () { waitTillAsyncApiLoaded(callback); },
delay)`. -/
structure Timer (κ : Type) where
  callback : κ
  delay : Nat

/-- The provider's closure variables (line 15) together with the page, the
event log and the timer queue.  `κ` is the type of readiness callbacks. -/
structure State (κ : Type) where
  apiKey : Val
  superProperties : Val
  config : Val
  page : Page
  log : List (Event κ)
  timers : List (Timer κ)

/-- A state and what the code returned or threw on the way to it. -/
structure Res (κ : Type) (α : Type) where
  state : State κ
  result : Except Thrown α

/-! ## Calls into the library -/

/-- The read `window.alooma`: `undefined` when `window` has no such
property. -/
def windowAlooma (p : Page) : Val :=
  p.alooma.getD .undefined

/-- The call `f(...args)` with `this`: a function is run by the
interpretation and the call is logged; calling anything else is a
`TypeError` and leaves the state alone. -/
def invoke {κ : Type} (ext : Ext) (path : List String) (f this : Val) (args : List Val)
    (s : State κ) : Res κ Val :=
  match f with
  | .fn id _ =>
    let r := ext id this args s.page
    ⟨{ s with page := r.page, log := s.log ++ [.call path id this args] }, r.result⟩
  | _ => ⟨s, .error .typeError⟩

/-- The index properties of an array-like holding `vs`, counting from
`i`. -/
def indexed : Nat → List Val → List (String × Val)
  | _, [] => []
  | i, v :: vs => (toString i, v) :: indexed (i + 1) vs

/-- The `arguments` object of a call with `args`. -/
def argumentsObject (args : List Val) : Val :=
  .obj (indexed 0 args ++ [("length", .num args.length)])

/-- The expression `fn.apply(scope, arguments)` (line 65): `apply` is read
on `fn` and what is found is called as a method of `fn`.  The built-in
`Function.prototype.apply`, which is found on functions only, calls `fn` with
`this = scope` and the arguments; any other value found is called with
`this = fn` and the two arguments `scope` and `arguments`. -/
def applyFn {κ : Type} (ext : Ext) (path : List String) (fn scope : Val) (args : List Val)
    (s : State κ) : Res κ Val :=
  match readApply fn with
  | .error e => ⟨s, .error e⟩
  | .ok .builtinApply => invoke ext path fn scope args s
  | .ok (.value m) => invoke ext (path ++ ["apply"]) m fn [scope, argumentsObject args] s

/-- The loop of lines 60-63: `scope` and `fn` after walking `parts`. -/
def lookup : List String → Val → Val → Except Thrown (Val × Val)
  | [], scope, fn => .ok (scope, fn)
  | p :: ps, _, fn =>
    match getProp fn p with
    | .error e => .error e
    | .ok v => lookup ps fn v

/-- The function returned by `callAloomaFn(name)` (lines 54-67), called with
`args` in state `s`. -/
def callAloomaFn {κ : Type} (ext : Ext) (name : String) (args : List Val) (s : State κ) :
    Res κ Val :=
  match lookup (split name) .undefined (windowAlooma s.page) with
  | .error e => ⟨s, .error e⟩
  | .ok (scope, fn) => applyFn ext (split name) fn scope args s

/-- A method call `recv.name(...args)`. -/
def callMethod {κ : Type} (ext : Ext) (recv : Val) (name : String) (args : List Val)
    (s : State κ) : Res κ Val :=
  match getProp recv name with
  | .error e => ⟨s, .error e⟩
  | .ok f => invoke ext [name] f recv args s

/-! ## The provider -/

/-- The accessor `this.apiKey` (lines 74-78). -/
def apiKey {κ : Type} (key : Val) (s : State κ) : Res κ Val :=
  if !truthy key then ⟨s, .ok s.apiKey⟩ else ⟨{ s with apiKey := key }, .ok .undefined⟩

/-- The accessor `this.config` (lines 85-89). -/
def config {κ : Type} (userConfig : Val) (s : State κ) : Res κ Val :=
  if !truthy userConfig then ⟨s, .ok s.config⟩
  else ⟨{ s with config := userConfig }, .ok .undefined⟩

/-- The accessor `this.superProperties` (lines 98-102). -/
def superProperties {κ : Type} (properties : Val) (s : State κ) : Res κ Val :=
  if !truthy properties then ⟨s, .ok s.superProperties⟩
  else ⟨{ s with superProperties := properties }, .ok .undefined⟩

/-- The condition of line 39: `window` has no own `alooma`, or
`window.alooma['__loaded'] === undefined`. -/
def notLoaded (p : Page) : Except Thrown Bool :=
  match p.alooma with
  | none => .ok true
  | some a =>
    match getProp a "__loaded" with
    | .error e => .error e
    | .ok v => .ok (isUndefined v)

/-- The function `waitTillAsyncApiLoaded` (lines 38-46).  `run` gives the
body of a callback. -/
def waitTillAsyncApiLoaded {κ : Type} (run : κ → State κ → Res κ Val) (callback : κ)
    (s : State κ) : Res κ Val :=
  match notLoaded s.page with
  | .error e => ⟨s, .error e⟩
  | .ok c =>
    let s1 := if c then { s with timers := s.timers ++ [⟨callback, 500⟩] } else s
    let r := run callback { s1 with log := s1.log ++ [.callback callback] }
    match r.result with
    | .error e => ⟨r.state, .error e⟩
    | .ok _ => ⟨r.state, .ok .undefined⟩

/-- The callbacks the provider passes to `waitTillAsyncApiLoaded`: the
function of lines 27-29. -/
inductive Callback where
  | registerSuperProperties

/-- The body of the callback of lines 27-29.  The identifier `alooma` is a
`ReferenceError` when the global is gone. -/
def runCallback (ext : Ext) : Callback → State Callback → Res Callback Val
  | .registerSuperProperties, s =>
    if truthy s.superProperties then
      match s.page.alooma with
      | none => ⟨s, .error .referenceError⟩
      | some a => callMethod ext a "register" [s.superProperties] s
    else ⟨s, .ok .undefined⟩

/-- The message thrown by line 22. -/
def missingGlobal : String :=
  "Global `alooma` not available. Did you forget to include the library on the page?"

/-- The function `init` (lines 20-30). -/
def init (ext : Ext) (s : State Callback) : Res Callback Val :=
  match s.page.alooma with
  | none => ⟨s, .error (.value (.str missingGlobal))⟩
  | some a =>
    let r := callMethod ext a "init" [s.apiKey, s.config] s
    match r.result with
    | .error e => ⟨r.state, .error e⟩
    | .ok _ => waitTillAsyncApiLoaded (runCallback ext) .registerSuperProperties r.state

/-- The object literal of lines 109-134: each method, by its path in the
returned object, with the name given to `callAloomaFn`. -/
abbrev Facade := List (List String × String)

/-- The facade returned by `$get`. -/
def facade : Facade :=
  [ (["init"], "init"),
    (["push"], "push"),
    (["disable"], "disable"),
    (["track"], "track"),
    (["track_links"], "track_links"),
    (["track_forms"], "track_forms"),
    (["register"], "register"),
    (["register_once"], "register_once"),
    (["unregister"], "unregister"),
    (["identify"], "identify"),
    (["get_distinct_id"], "get_distinct_id"),
    (["alias"], "alias"),
    (["set_config"], "set_config"),
    (["get_config"], "get_config"),
    (["get_property"], "get_property"),
    (["people", "set"], "people.set"),
    (["people", "set_once"], "people.set_once"),
    (["people", "increment"], "people.increment"),
    (["people", "append"], "people.append"),
    (["people", "track_charge"], "people.track_charge"),
    (["people", "clear_charges"], "people.clear_charges"),
    (["people", "delete_user"], "people.delete_user") ]

/-- The provider method `this.$get` (lines 104-135). -/
def get (ext : Ext) (s : State Callback) : Res Callback Facade :=
  let r := init ext s
  match r.result with
  | .error e => ⟨r.state, .error e⟩
  | .ok _ => ⟨r.state, .ok facade⟩

/-- A call `f.path(...args)` of a method of a facade `f`; a path that names
no method is not callable. -/
def callFacade {κ : Type} (ext : Ext) (f : Facade) (path : List String) (args : List Val)
    (s : State κ) : Res κ Val :=
  match f.lookup path with
  | none => ⟨s, .error .typeError⟩
  | some name => callAloomaFn ext name args s

/-! ## The timer queue -/

/-- The oldest pending timer fires: its function runs
`waitTillAsyncApiLoaded(callback)`; what that throws is not caught by
anyone. -/
def fireTimer {κ : Type} (run : κ → State κ → Res κ Val) (s : State κ) : State κ :=
  match s.timers with
  | [] => s
  | t :: rest => (waitTillAsyncApiLoaded run t.callback { s with timers := rest }).state

/-- The timer queue is drained once for each page in `pages`: the page is
what it has become by the time the timer fires. -/
def poll {κ : Type} (run : κ → State κ → Res κ Val) : List Page → State κ → State κ
  | [], s => s
  | p :: ps, s => poll run ps (fireTimer run { s with page := p })

/-! ## Instances and abbreviations used in the statements -/

/-- A state in which nothing has been configured, logged or scheduled, on
page `p`. -/
def initial (κ : Type) (p : Page) : State κ :=
  ⟨.undefined, .undefined, .undefined, p, [], []⟩

/-- An interpretation in which every library function returns `undefined`
and leaves the page alone. -/
def quiet : Ext :=
  fun _ _ _ p => ⟨.ok .undefined, p⟩

/-- The state of the facade call `callAloomaFn(name)(...args)` after a call of
library function `id` with `this = scope`. -/
def forwarded {κ : Type} (ext : Ext) (path : List String) (id : Nat) (scope : Val)
    (args : List Val) (s : State κ) : Res κ Val :=
  ⟨{ s with page := (ext id scope args s.page).page,
            log := s.log ++ [.call path id scope args] },
   (ext id scope args s.page).result⟩

/-- Whether an event is a call into the library made through `path`. -/
def isCallVia {κ : Type} (path : List String) : Event κ → Bool
  | .call p _ _ _ => p == path
  | .callback _ => false

/-- Whether an event is an invocation of a readiness callback. -/
def isCallback {κ : Type} : Event κ → Bool
  | .call _ _ _ _ => false
  | .callback _ => true

/-- How many times a readiness callback was invoked in a log. -/
def callbackCount {κ : Type} (log : List (Event κ)) : Nat :=
  (log.filter isCallback).length

/-- A page on which `alooma.init` is function `0`, `alooma.register` is
function `2`, and `__loaded` is `true`. -/
def loadedPage : Page :=
  ⟨some (.obj [("init", .fn 0 []), ("register", .fn 2 []), ("__loaded", .bool true)]), 0⟩

/-- A page on which `alooma.init` is function `0`, `alooma.register` is
function `2`, and there is no `__loaded`. -/
def loadingPage : Page :=
  ⟨some (.obj [("init", .fn 0 []), ("register", .fn 2 [])]), 0⟩

/-- The receiver and the function of a call `alooma.register(...)` on page
`p`, when `alooma` is there and its `register` is a function. -/
def registerOf (p : Page) : Option (Val × Nat) :=
  match p.alooma with
  | none => none
  | some a =>
    match getProp a "register" with
    | .ok (.fn rid _) => some (a, rid)
    | _ => none

/-- A first readiness check of `callback` made on page `q`, then one timer
firing for each further page. -/
def checks {κ : Type} (run : κ → State κ → Res κ Val) (callback : κ) :
    List Page → State κ → State κ
  | [], s => s
  | q :: qs, s => poll run qs (waitTillAsyncApiLoaded run callback { s with page := q }).state

/-- A callback body that neither touches the timer queue nor invokes a
readiness callback itself. -/
def Framed {κ : Type} (run : κ → State κ → Res κ Val) : Prop :=
  ∀ k st, (run k st).state.timers = st.timers ∧
    callbackCount (run k st).state.log = callbackCount st.log

/-- A provider with super properties `{plan: 'pro'}` configured, on page
`p`. -/
def configured (p : Page) : State Callback :=
  ⟨.undefined, .obj [("plan", .str "pro")], .undefined, p, [], []⟩

/-- The value found below `root` at a property path, each segment read on
what the segment before gave: what it is for a dotted path to resolve on
`root`.  It is stated apart from the loop of `callAloomaFn`, which is judged
against it. -/
def valueAt (root : Val) : List String → Except Thrown Val
  | [] => .ok root
  | p :: ps =>
    match getProp root p with
    | .error e => .error e
    | .ok v => valueAt v ps

/-- A page whose `alooma.track` is function `5`, on which a read of `apply`
finds `found` in place of the built-in. -/
def shadowedPage (found : Val) : Page :=
  ⟨some (.obj [("track", .fn 5 [("apply", found)])]), 0⟩

/-- A page whose `alooma.set` is function `8` and whose `alooma.people.set`
is function `3`. -/
def twoSetsPage : Page :=
  ⟨some (.obj [("set", .fn 8 []), ("people", .obj [("set", .fn 3 [])])]), 0⟩

/-! ## Facts about the embedding -/

theorem getProp_error {v : Val} {k : String} {e : Thrown} (h : getProp v k = .error e) :
    e = .typeError := by
  cases v <;> simp [getProp] at h <;> exact h.symm

theorem lookup_error {parts : List String} {scope fn : Val} {e : Thrown}
    (h : lookup parts scope fn = .error e) : e = .typeError := by
  induction parts generalizing scope fn with
  | nil => simp [lookup] at h
  | cons p ps ih =>
    simp only [lookup] at h
    cases hp : getProp fn p with
    | error e1 =>
      rw [hp] at h
      simp only [Except.error.injEq] at h
      subst h
      exact getProp_error hp
    | ok v =>
      rw [hp] at h
      exact ih h

theorem facade_entry {path : List String} {name : String} (h : (path, name) ∈ facade) :
    facade.lookup path = some name ∧ split name = path := by
  simp only [facade, List.mem_cons, Prod.mk.injEq, List.mem_singleton, List.not_mem_nil,
    or_false] at h
  rcases h with h | h | h | h | h | h | h | h | h | h | h | h | h | h | h | h | h | h | h | h
    | h | h <;> obtain ⟨rfl, rfl⟩ := h <;> exact ⟨rfl, rfl⟩

theorem get_facade {ext : Ext} {s : State Callback} {f : Facade}
    (h : (get ext s).result = .ok f) : f = facade := by
  unfold get at h
  cases hr : (init ext s).result with
  | error e => simp [hr] at h
  | ok v =>
    simp [hr] at h
    exact h.symm

/-- C5: each of the three accessors, called with a truthy value, returns
`undefined`, and the same accessor called next without an argument returns
that value, whatever was stored before. -/
theorem accessor_set_then_get {κ : Type} (v : Val) (s : State κ) (hv : truthy v = true) :
    ((apiKey v s).result = .ok .undefined ∧
      (apiKey .undefined (apiKey v s).state).result = .ok v) ∧
    ((config v s).result = .ok .undefined ∧
      (config .undefined (config v s).state).result = .ok v) ∧
    ((superProperties v s).result = .ok .undefined ∧
      (superProperties .undefined (superProperties v s).state).result = .ok v) := by
  have hu : truthy Val.undefined = false := rfl
  simp [apiKey, config, superProperties, hv, hu]

/-- C5, on an instance: `'first'` is stored, then `'ABC123'` is stored over
it and read back. -/
theorem accessor_set_then_get_witness :
    truthy (.str "ABC123") = true ∧
    (apiKey .undefined
      (apiKey (.str "ABC123") (apiKey (.str "first") (initial Unit ⟨none, 0⟩)).state).state).result
      = .ok (.str "ABC123") :=
  ⟨rfl, (accessor_set_then_get (.str "ABC123")
    (apiKey (.str "first") (initial Unit ⟨none, 0⟩)).state rfl).1.2⟩

/-- C6: each of the three accessors, called with a falsy argument
(`undefined` or none, `null`, `''`, `0`, `false`, `NaN`), returns the value
stored for it and leaves the whole state as it was; so no run of such calls
changes a stored value. -/
theorem accessor_falsy_reads {κ : Type} (v : Val) (s : State κ) (hv : truthy v = false) :
    (∀ w ∈ [Val.undefined, .null, .str "", .num 0, .bool false, .nan], truthy w = false) ∧
    apiKey v s = ⟨s, .ok s.apiKey⟩ ∧
    config v s = ⟨s, .ok s.config⟩ ∧
    superProperties v s = ⟨s, .ok s.superProperties⟩ ∧
    (∀ vs : List Val, (∀ w ∈ vs, truthy w = false) →
      vs.foldl (fun st w => (apiKey w st).state) s = s ∧
      vs.foldl (fun st w => (config w st).state) s = s ∧
      vs.foldl (fun st w => (superProperties w st).state) s = s) := by
  refine ⟨?_, ?_, ?_, ?_, ?_⟩
  · intro w hw
    simp only [List.mem_cons, List.mem_singleton, List.not_mem_nil, or_false] at hw
    rcases hw with rfl | rfl | rfl | rfl | rfl | rfl <;> rfl
  · simp [apiKey, hv]
  · simp [config, hv]
  · simp [superProperties, hv]
  · intro vs
    induction vs with
    | nil => intro _; exact ⟨rfl, rfl, rfl⟩
    | cons w ws ih =>
      intro h
      have hw : truthy w = false := h w (List.mem_cons_self _ _)
      have hws := ih (fun x hx => h x (List.mem_cons_of_mem _ hx))
      simp only [List.foldl_cons, apiKey, config, superProperties, hw, Bool.not_false,
        if_true]
      exact hws

/-- C6, on an instance: with `'ABC123'` stored, `apiKey('')` returns it and
changes nothing. -/
theorem accessor_falsy_reads_witness :
    truthy (.str "") = false ∧
    apiKey (.str "") (apiKey (.str "ABC123") (initial Unit ⟨none, 0⟩)).state
      = ⟨(apiKey (.str "ABC123") (initial Unit ⟨none, 0⟩)).state, .ok (.str "ABC123")⟩ :=
  ⟨rfl, (accessor_falsy_reads (.str "")
    (apiKey (.str "ABC123") (initial Unit ⟨none, 0⟩)).state rfl).2.1⟩

/-- C3: when `window` has no own property `alooma`, `$get` throws the
string message of line 22 and returns no facade; the state is left as it
was: no call into the library is logged, no timer is scheduled, and the stored
key, config and super properties are unchanged. -/
theorem get_missing_global (ext : Ext) (s : State Callback) (h : s.page.alooma = none) :
    get ext s = ⟨s, .error (.value (.str missingGlobal))⟩ := by
  simp [get, init, h]

/-- C3, on an instance: a configured provider on a page without the
library. -/
theorem get_missing_global_witness :
    (apiKey (.str "ABC123") (initial Callback ⟨none, 0⟩)).state.page.alooma = none ∧
    get quiet (apiKey (.str "ABC123") (initial Callback ⟨none, 0⟩)).state
      = ⟨(apiKey (.str "ABC123") (initial Callback ⟨none, 0⟩)).state,
          .error (.value (.str missingGlobal))⟩ :=
  ⟨rfl, get_missing_global quiet _ rfl⟩

theorem facade_shape {path : List String} {name : String} (h : (path, name) ∈ facade) :
    (∃ m, path = [m]) ∨ (∃ m, path = ["people", m]) := by
  simp only [facade, List.mem_cons, Prod.mk.injEq, List.mem_singleton, List.not_mem_nil,
    or_false] at h
  rcases h with h | h | h | h | h | h | h | h | h | h | h | h | h | h | h | h | h | h | h | h
    | h | h <;> obtain ⟨rfl, rfl⟩ := h <;> simp

theorem get_state (ext : Ext) (s : State Callback) :
    (get ext s).state = (init ext s).state := by
  simp only [get]
  cases (init ext s).result <;> rfl

theorem wait_error {κ : Type} (run : κ → State κ → Res κ Val) (cb : κ) (s : State κ)
    {e : Thrown} (h : notLoaded s.page = .error e) :
    waitTillAsyncApiLoaded run cb s = ⟨s, .error e⟩ := by
  simp [waitTillAsyncApiLoaded, h]

theorem wait_state_true {κ : Type} (run : κ → State κ → Res κ Val) (cb : κ) (s : State κ)
    (h : notLoaded s.page = .ok true) :
    (waitTillAsyncApiLoaded run cb s).state
      = (run cb { s with timers := s.timers ++ [⟨cb, 500⟩],
                         log := s.log ++ [.callback cb] }).state := by
  simp only [waitTillAsyncApiLoaded, h, if_true]
  split <;> rfl

theorem wait_state_false {κ : Type} (run : κ → State κ → Res κ Val) (cb : κ) (s : State κ)
    (h : notLoaded s.page = .ok false) :
    (waitTillAsyncApiLoaded run cb s).state
      = (run cb { s with log := s.log ++ [.callback cb] }).state := by
  simp only [waitTillAsyncApiLoaded, h]
  split <;> rfl

theorem runCallback_state (ext : Ext) (k : Callback) (st : State Callback) :
    ∃ p L, (runCallback ext k st).state = { st with page := p, log := st.log ++ L } ∧
      (L = [] ∨ ∃ id a, L = [.call ["register"] id a [st.superProperties]]) := by
  cases k
  simp only [runCallback]
  by_cases hsp : truthy st.superProperties = true
  · simp only [hsp, if_true]
    cases ha : st.page.alooma with
    | none => exact ⟨st.page, [], by simp, Or.inl rfl⟩
    | some a =>
      simp only [callMethod]
      cases hp : getProp a "register" with
      | error e => exact ⟨st.page, [], by simp, Or.inl rfl⟩
      | ok f =>
        cases f with
        | fn id fp =>
          exact ⟨(ext id a [st.superProperties] st.page).page, _, rfl, Or.inr ⟨id, a, rfl⟩⟩
        | _ => exact ⟨st.page, [], by simp [invoke], Or.inl rfl⟩
  · simp only [hsp]
    exact ⟨st.page, [], by simp, Or.inl rfl⟩

theorem runCallback_register (ext : Ext) (st : State Callback) {a : Val} {rid : Nat}
    {rp : List (String × Val)}
    (hsp : truthy st.superProperties = true) (ha : st.page.alooma = some a)
    (hreg : getProp a "register" = .ok (.fn rid rp)) :
    (runCallback ext .registerSuperProperties st).state
      = { st with page := (ext rid a [st.superProperties] st.page).page,
                  log := st.log ++ [.call ["register"] rid a [st.superProperties]] } := by
  simp [runCallback, hsp, ha, callMethod, hreg, invoke]

theorem wait_runCallback_log (ext : Ext) (s : State Callback) :
    ∃ L, (waitTillAsyncApiLoaded (runCallback ext) .registerSuperProperties s).state.log
        = s.log ++ L ∧ ∀ e ∈ L, isCallVia ["init"] e = false := by
  cases hn : notLoaded s.page with
  | error e => exact ⟨[], by simp [wait_error _ _ _ hn], by simp⟩
  | ok c =>
    have key : ∀ st : State Callback, st.log = s.log ++ [.callback .registerSuperProperties] →
        ∃ L, (runCallback ext .registerSuperProperties st).state.log = s.log ++ L ∧
          ∀ e ∈ L, isCallVia ["init"] e = false := by
      intro st hst
      obtain ⟨p, L, hL, hcase⟩ := runCallback_state ext .registerSuperProperties st
      refine ⟨.callback .registerSuperProperties :: L, by simp [hL, hst], ?_⟩
      intro e he
      rcases hcase with rfl | ⟨id, a, rfl⟩
      · simp only [List.mem_singleton] at he
        subst he
        rfl
      · simp only [List.mem_cons, List.mem_singleton, List.not_mem_nil, or_false] at he
        rcases he with rfl | rfl <;> rfl
    cases c with
    | true => rw [wait_state_true _ _ _ hn]; exact key _ rfl
    | false => rw [wait_state_false _ _ _ hn]; exact key _ rfl

/-- C2: when `window` has an own property `alooma` whose `init` is a
function, `$get` calls `alooma.init` exactly once, with `this = alooma` and
the two arguments (stored key, stored config) as they stand at that moment;
the call is the first thing `$get` does, before anything is returned, and
nothing that follows it inside `$get` is a call through `init`. -/
theorem get_calls_init (ext : Ext) (s : State Callback) (a : Val) (id : Nat)
    (fp : List (String × Val))
    (ha : s.page.alooma = some a) (hinit : getProp a "init" = .ok (.fn id fp)) :
    ∃ rest, (get ext s).state.log
        = s.log ++ .call ["init"] id a [s.apiKey, s.config] :: rest ∧
      ∀ e ∈ rest, isCallVia ["init"] e = false := by
  rw [get_state]
  simp only [init, ha, callMethod, hinit, invoke]
  split
  · exact ⟨[], by simp, by simp⟩
  · obtain ⟨L, hL, hno⟩ := wait_runCallback_log ext
      { s with page := (ext id a [s.apiKey, s.config] s.page).page,
               log := s.log ++ [.call ["init"] id a [s.apiKey, s.config]] }
    exact ⟨L, by simp [hL], hno⟩

/-- C2, on an instance: `apiKey('ABC123')`, no config, then `$get` on a
page whose `alooma` has `init` and `__loaded = true`: one call
`init('ABC123', undefined)`. -/
theorem get_calls_init_witness :
    (apiKey (.str "ABC123") (initial Callback loadedPage)).state.page.alooma
      = some (.obj [("init", .fn 0 []), ("register", .fn 2 []), ("__loaded", .bool true)]) ∧
    getProp (.obj [("init", .fn 0 []), ("register", .fn 2 []), ("__loaded", .bool true)]) "init"
      = .ok (.fn 0 []) ∧
    (get quiet (apiKey (.str "ABC123") (initial Callback loadedPage)).state).state.log
      = [.call ["init"] 0
          (.obj [("init", .fn 0 []), ("register", .fn 2 []), ("__loaded", .bool true)])
          [.str "ABC123", .undefined],
         .callback .registerSuperProperties] ∧
    ∃ rest, (get quiet (apiKey (.str "ABC123") (initial Callback loadedPage)).state).state.log
        = [] ++ .call ["init"] 0
          (.obj [("init", .fn 0 []), ("register", .fn 2 []), ("__loaded", .bool true)])
          [.str "ABC123", .undefined] :: rest ∧
      ∀ e ∈ rest, isCallVia ["init"] e = false :=
  ⟨rfl, rfl, rfl, get_calls_init quiet
    (apiKey (.str "ABC123") (initial Callback loadedPage)).state _ 0 [] rfl rfl⟩

theorem poll_idle {κ : Type} (run : κ → State κ → Res κ Val) (pages : List Page)
    (s : State κ) (h : s.timers = []) :
    (poll run pages s).log = s.log ∧ (poll run pages s).timers = [] := by
  induction pages generalizing s with
  | nil => exact ⟨rfl, h⟩
  | cons p ps ih =>
    have hf : fireTimer run { s with page := p } = { s with page := p } := by
      simp [fireTimer, h]
    simp only [poll, hf]
    exact ih _ h

/-- C4: with truthy super properties configured, `alooma.init` a function
that returns, and after it `alooma` present with a `__loaded` that is not
`undefined` and a function as `register`: `$get` calls `alooma.register`
exactly once, with the super properties as its only argument, after the call
of `init`; it schedules no timer, so that with no timer pending before, no
later timer firing adds anything to the log. -/
theorem get_registers_once (ext : Ext) (s : State Callback) (a a1 v : Val) (id rid : Nat)
    (fp rp : List (String × Val))
    (hsp : truthy s.superProperties = true) (ha : s.page.alooma = some a)
    (hinit : getProp a "init" = .ok (.fn id fp))
    (hok : (ext id a [s.apiKey, s.config] s.page).result = .ok v)
    (hloaded : notLoaded (ext id a [s.apiKey, s.config] s.page).page = .ok false)
    (ha1 : (ext id a [s.apiKey, s.config] s.page).page.alooma = some a1)
    (hreg : getProp a1 "register" = .ok (.fn rid rp)) :
    (get ext s).state.log
      = s.log ++ [.call ["init"] id a [s.apiKey, s.config],
                  .callback .registerSuperProperties,
                  .call ["register"] rid a1 [s.superProperties]] ∧
    (get ext s).state.timers = s.timers ∧
    (s.timers = [] → ∀ pages,
      (poll (runCallback ext) pages (get ext s).state).log = (get ext s).state.log) := by
  have hst : (get ext s).state
      = { s with page := (ext rid a1 [s.superProperties]
                            (ext id a [s.apiKey, s.config] s.page).page).page,
                 log := s.log ++ [.call ["init"] id a [s.apiKey, s.config],
                                  .callback .registerSuperProperties,
                                  .call ["register"] rid a1 [s.superProperties]] } := by
    have h0 : init ext s
        = waitTillAsyncApiLoaded (runCallback ext) .registerSuperProperties
            { s with page := (ext id a [s.apiKey, s.config] s.page).page,
                     log := s.log ++ [.call ["init"] id a [s.apiKey, s.config]] } := by
      simp only [init, ha, callMethod, hinit, invoke, hok]
    rw [get_state, h0, wait_state_false _ _ _ hloaded]
    have h1 := runCallback_register ext
      { s with page := (ext id a [s.apiKey, s.config] s.page).page,
               log := s.log ++ [.call ["init"] id a [s.apiKey, s.config]]
                        ++ [.callback .registerSuperProperties] } hsp ha1 hreg
    rw [h1]
    simp
  rw [hst]
  refine ⟨rfl, rfl, ?_⟩
  intro ht pages
  refine (poll_idle (runCallback ext) pages _ ?_).1
  exact ht

/-- C4, on an instance: super properties `{plan: 'pro'}` on a page whose
`alooma` is loaded. -/
theorem get_registers_once_witness :
    truthy (configured loadedPage).superProperties = true ∧
    (get quiet (configured loadedPage)).state.log
      = [.call ["init"] 0
          (.obj [("init", .fn 0 []), ("register", .fn 2 []), ("__loaded", .bool true)])
          [.undefined, .undefined],
         .callback .registerSuperProperties,
         .call ["register"] 2
          (.obj [("init", .fn 0 []), ("register", .fn 2 []), ("__loaded", .bool true)])
          [.obj [("plan", .str "pro")]]] ∧
    (get quiet (configured loadedPage)).state.timers = [] :=
  ⟨rfl, (get_registers_once quiet (configured loadedPage)
      (.obj [("init", .fn 0 []), ("register", .fn 2 []), ("__loaded", .bool true)])
      (.obj [("init", .fn 0 []), ("register", .fn 2 []), ("__loaded", .bool true)])
      .undefined 0 2 [] [] rfl rfl rfl rfl rfl rfl rfl).1,
    (get_registers_once quiet (configured loadedPage)
      (.obj [("init", .fn 0 []), ("register", .fn 2 []), ("__loaded", .bool true)])
      (.obj [("init", .fn 0 []), ("register", .fn 2 []), ("__loaded", .bool true)])
      .undefined 0 2 [] [] rfl rfl rfl rfl rfl rfl rfl).2.1⟩

/-- C7, at the failing input: `alooma` is there without `__loaded` and
super properties are configured.  `waitTillAsyncApiLoaded(callback)`
schedules the re-check of the same callback after 500, and also invokes the
callback at once: `alooma.register` is called before the library has
loaded. -/
theorem waitTillAsyncApiLoaded_invokes_when_not_loaded :
    notLoaded (configured loadingPage).page = .ok true ∧
    (waitTillAsyncApiLoaded (runCallback quiet) .registerSuperProperties
        (configured loadingPage)).state.timers
      = [⟨.registerSuperProperties, 500⟩] ∧
    (waitTillAsyncApiLoaded (runCallback quiet) .registerSuperProperties
        (configured loadingPage)).state.log
      = [.callback .registerSuperProperties,
         .call ["register"] 2 (.obj [("init", .fn 0 []), ("register", .fn 2 [])])
          [.obj [("plan", .str "pro")]]] :=
  ⟨rfl, rfl, rfl⟩

theorem callbackCount_append_callback {κ : Type} (log : List (Event κ)) (cb : κ) :
    callbackCount (log ++ [.callback cb]) = callbackCount log + 1 := by
  simp [callbackCount, List.filter_append, isCallback]

theorem check_true {κ : Type} {run : κ → State κ → Res κ Val} (hrun : Framed run) (cb : κ)
    (s : State κ) (h : notLoaded s.page = .ok true) :
    (waitTillAsyncApiLoaded run cb s).state.timers = s.timers ++ [⟨cb, 500⟩] ∧
    callbackCount (waitTillAsyncApiLoaded run cb s).state.log = callbackCount s.log + 1 := by
  rw [wait_state_true run cb s h]
  obtain ⟨h1, h2⟩ := hrun cb
    { s with timers := s.timers ++ [⟨cb, 500⟩], log := s.log ++ [.callback cb] }
  rw [h1, h2]
  exact ⟨rfl, callbackCount_append_callback _ _⟩

theorem check_false {κ : Type} {run : κ → State κ → Res κ Val} (hrun : Framed run) (cb : κ)
    (s : State κ) (h : notLoaded s.page = .ok false) :
    (waitTillAsyncApiLoaded run cb s).state.timers = s.timers ∧
    callbackCount (waitTillAsyncApiLoaded run cb s).state.log = callbackCount s.log + 1 := by
  rw [wait_state_false run cb s h]
  obtain ⟨h1, h2⟩ := hrun cb { s with log := s.log ++ [.callback cb] }
  rw [h1, h2]
  exact ⟨rfl, callbackCount_append_callback _ _⟩

theorem fireTimer_single {κ : Type} (run : κ → State κ → Res κ Val) (cb : κ) (d : Nat)
    (s : State κ) (q : Page) (h : s.timers = [⟨cb, d⟩]) :
    fireTimer run { s with page := q }
      = (waitTillAsyncApiLoaded run cb { s with page := q, timers := [] }).state := by
  simp [fireTimer, h]

theorem poll_append {κ : Type} (run : κ → State κ → Res κ Val) (xs ys : List Page)
    (s : State κ) : poll run (xs ++ ys) s = poll run ys (poll run xs s) := by
  induction xs generalizing s with
  | nil => rfl
  | cons x xs ih =>
    show poll run (xs ++ ys) _ = poll run ys (poll run xs _)
    exact ih _

theorem poll_true {κ : Type} {run : κ → State κ → Res κ Val} (hrun : Framed run) (cb : κ)
    (qs : List Page) (s : State κ) (ht : s.timers = [⟨cb, 500⟩])
    (hq : ∀ q ∈ qs, notLoaded q = .ok true) :
    (poll run qs s).timers = [⟨cb, 500⟩] ∧
    callbackCount (poll run qs s).log = callbackCount s.log + qs.length := by
  induction qs generalizing s with
  | nil => exact ⟨ht, rfl⟩
  | cons q qs ih =>
    have hq1 : notLoaded q = .ok true := hq q (List.mem_cons_self _ _)
    obtain ⟨h1, h2⟩ := check_true hrun cb { s with page := q, timers := [] } hq1
    have h2a : callbackCount
        (waitTillAsyncApiLoaded run cb { s with page := q, timers := [] }).state.log
        = callbackCount s.log + 1 := h2
    simp only [poll, fireTimer_single run cb 500 s q ht]
    obtain ⟨h3, h4⟩ := ih _ (by rw [h1]; rfl) (fun x hx => hq x (List.mem_cons_of_mem _ hx))
    refine ⟨h3, ?_⟩
    rw [h4, h2a, List.length_cons]
    omega

theorem poll_last {κ : Type} {run : κ → State κ → Res κ Val} (hrun : Framed run) (cb : κ)
    (last : Page) (s : State κ) (ht : s.timers = [⟨cb, 500⟩])
    (hl : notLoaded last = .ok false) :
    (poll run [last] s).timers = [] ∧
    callbackCount (poll run [last] s).log = callbackCount s.log + 1 := by
  obtain ⟨h1, h2⟩ := check_false hrun cb { s with page := last, timers := [] } hl
  simp only [poll, fireTimer_single run cb 500 s last ht]
  exact ⟨h1, h2⟩

theorem runCallback_framed (ext : Ext) : Framed (runCallback ext) := by
  intro k st
  obtain ⟨p, L, hL, hcase⟩ := runCallback_state ext k st
  rw [hL]
  refine ⟨rfl, ?_⟩
  rcases hcase with rfl | ⟨id, a, rfl⟩ <;>
    simp [callbackCount, List.filter_append, isCallback]

theorem registerOf_some {p : Page} (h : (registerOf p).isSome = true) :
    ∃ a rid rp, p.alooma = some a ∧ getProp a "register" = .ok (.fn rid rp) := by
  unfold registerOf at h
  cases ha : p.alooma with
  | none => simp [ha] at h
  | some a =>
    simp only [ha] at h
    cases hp : getProp a "register" with
    | error e => simp [hp] at h
    | ok f =>
      cases f with
      | fn rid rp => exact ⟨a, rid, rp, rfl, hp⟩
      | _ => simp [hp] at h

theorem check_register (ext : Ext) (s : State Callback)
    (hsp : truthy s.superProperties = true) (hn : notLoaded s.page = .ok true)
    (hr : (registerOf s.page).isSome = true) :
    ∃ p rid a, (waitTillAsyncApiLoaded (runCallback ext) .registerSuperProperties s).state
      = { s with page := p, timers := s.timers ++ [⟨.registerSuperProperties, 500⟩],
                 log := s.log ++ [.callback .registerSuperProperties,
                                  .call ["register"] rid a [s.superProperties]] } := by
  obtain ⟨a, rid, rp, ha, hreg⟩ := registerOf_some hr
  rw [wait_state_true _ _ _ hn]
  have h1 := runCallback_register ext
    { s with timers := s.timers ++ [⟨.registerSuperProperties, 500⟩],
             log := s.log ++ [.callback .registerSuperProperties] } hsp ha hreg
  rw [h1]
  exact ⟨(ext rid a [s.superProperties] s.page).page, rid, a, by simp⟩

theorem poll_register (ext : Ext) (qs : List Page) (s : State Callback)
    (hsp : truthy s.superProperties = true)
    (ht : s.timers = [⟨.registerSuperProperties, 500⟩])
    (hq : ∀ q ∈ qs, notLoaded q = .ok true ∧ (registerOf q).isSome = true) :
    ∃ L, (poll (runCallback ext) qs s).log = s.log ++ L ∧
      (L.filter (isCallVia ["register"])).length = qs.length ∧
      ∀ e ∈ L, isCallVia ["register"] e = true →
        ∃ rid this, e = .call ["register"] rid this [s.superProperties] := by
  induction qs generalizing s with
  | nil => exact ⟨[], by simp [poll], rfl, by simp⟩
  | cons q qs ih =>
    obtain ⟨hq1, hq2⟩ := hq q (List.mem_cons_self _ _)
    obtain ⟨p, rid, a, hst⟩ := check_register ext { s with page := q, timers := [] } hsp hq1 hq2
    simp only [poll, fireTimer_single _ _ 500 s q ht]
    rw [hst]
    obtain ⟨L, hL, hcount, hall⟩ := ih
      { s with page := p, timers := [] ++ [⟨.registerSuperProperties, 500⟩],
               log := s.log ++ [.callback .registerSuperProperties,
                                .call ["register"] rid a [s.superProperties]] }
      hsp rfl (fun x hx => hq x (List.mem_cons_of_mem _ hx))
    refine ⟨[.callback .registerSuperProperties,
             .call ["register"] rid a [s.superProperties]] ++ L, ?_, ?_, ?_⟩
    · rw [hL]; simp
    · simp only [List.filter_append, List.length_append, hcount, List.length_cons]
      have : (List.filter (isCallVia ["register"])
          [(.callback .registerSuperProperties : Event Callback),
           .call ["register"] rid a [s.superProperties]]).length = 1 := rfl
      rw [this]
      omega
    · intro e he hv
      simp only [List.cons_append, List.nil_append, List.mem_cons] at he
      rcases he with rfl | rfl | he
      · exact absurd hv (by simp [isCallVia])
      · exact ⟨rid, a, rfl⟩
      · exact hall e he hv

/-- C10: every readiness check invokes the callback once, ready or not.
For a callback body that leaves the timer queue alone, and no timer pending
at the start: (1) if the first `n` checks find the library not loaded and
check `n + 1` finds `__loaded` present, then after check `n + 1` the callback
has been invoked `n + 1` times and no retry is pending; (2) as long as every
check finds it not loaded, after the first check and `k` timer firings the
callback has been invoked `k + 1` times and exactly one retry, of delay 500,
is pending; (3) with truthy super properties, `init` returning and
`alooma.register` a function at every check, `$get` itself already calls
`alooma.register` with the super properties, and after `k` further firings on
a library still not loaded it has been called `k + 1` times, each time with
the super properties as only argument. -/
theorem polling_invokes_callback_on_every_check :
    (∀ (κ : Type) (run : κ → State κ → Res κ Val) (cb : κ) (s : State κ)
        (pre : List Page) (last : Page),
      Framed run → s.timers = [] → (∀ q ∈ pre, notLoaded q = .ok true) →
      notLoaded last = .ok false →
      callbackCount (checks run cb (pre ++ [last]) s).log
          = callbackCount s.log + (pre.length + 1) ∧
        (checks run cb (pre ++ [last]) s).timers = []) ∧
    (∀ (κ : Type) (run : κ → State κ → Res κ Val) (cb : κ) (s : State κ)
        (q : Page) (qs : List Page),
      Framed run → s.timers = [] → (∀ x ∈ q :: qs, notLoaded x = .ok true) →
      callbackCount (checks run cb (q :: qs) s).log
          = callbackCount s.log + (qs.length + 1) ∧
        (checks run cb (q :: qs) s).timers = [⟨cb, 500⟩]) ∧
    (∀ (ext : Ext) (s : State Callback) (a v : Val) (id : Nat) (fp : List (String × Val))
        (qs : List Page),
      truthy s.superProperties = true → s.timers = [] → s.page.alooma = some a →
      getProp a "init" = .ok (.fn id fp) →
      (ext id a [s.apiKey, s.config] s.page).result = .ok v →
      notLoaded (ext id a [s.apiKey, s.config] s.page).page = .ok true →
      (registerOf (ext id a [s.apiKey, s.config] s.page).page).isSome = true →
      (∀ q ∈ qs, notLoaded q = .ok true ∧ (registerOf q).isSome = true) →
      (∃ rid a1, (get ext s).state.log
          = s.log ++ [.call ["init"] id a [s.apiKey, s.config],
                      .callback .registerSuperProperties,
                      .call ["register"] rid a1 [s.superProperties]]) ∧
        ∃ L, (poll (runCallback ext) qs (get ext s).state).log = s.log ++ L ∧
          (L.filter (isCallVia ["register"])).length = qs.length + 1 ∧
          ∀ e ∈ L, isCallVia ["register"] e = true →
            ∃ rid this, e = .call ["register"] rid this [s.superProperties]) := by
  refine ⟨?_, ?_, ?_⟩
  · intro κ run cb s pre last hrun ht hpre hlast
    cases pre with
    | nil =>
      obtain ⟨h1, h2⟩ := check_false hrun cb { s with page := last } hlast
      exact ⟨h2, h1.trans ht⟩
    | cons q qs =>
      have hq : notLoaded q = .ok true := hpre q (List.mem_cons_self _ _)
      obtain ⟨h1, h2⟩ := check_true hrun cb { s with page := q } hq
      have h1a : (waitTillAsyncApiLoaded run cb { s with page := q }).state.timers
          = [⟨cb, 500⟩] := by
        rw [h1]
        show s.timers ++ _ = _
        rw [ht]
        rfl
      have h2a : callbackCount (waitTillAsyncApiLoaded run cb { s with page := q }).state.log
          = callbackCount s.log + 1 := h2
      obtain ⟨h3, h4⟩ := poll_true hrun cb qs _ h1a
        (fun x hx => hpre x (List.mem_cons_of_mem _ hx))
      obtain ⟨h5, h6⟩ := poll_last hrun cb last _ h3 hlast
      show callbackCount (poll run (qs ++ [last]) _).log = _ ∧ (poll run (qs ++ [last]) _).timers = _
      rw [poll_append]
      refine ⟨?_, h5⟩
      rw [h6, h4, h2a, List.length_cons]
      omega
  · intro κ run cb s q qs hrun ht hall
    have hq : notLoaded q = .ok true := hall q (List.mem_cons_self _ _)
    obtain ⟨h1, h2⟩ := check_true hrun cb { s with page := q } hq
    have h1a : (waitTillAsyncApiLoaded run cb { s with page := q }).state.timers
        = [⟨cb, 500⟩] := by
      rw [h1]
      show s.timers ++ _ = _
      rw [ht]
      rfl
    have h2a : callbackCount (waitTillAsyncApiLoaded run cb { s with page := q }).state.log
        = callbackCount s.log + 1 := h2
    obtain ⟨h3, h4⟩ := poll_true hrun cb qs _ h1a
      (fun x hx => hall x (List.mem_cons_of_mem _ hx))
    show callbackCount (poll run qs _).log = _ ∧ (poll run qs _).timers = _
    refine ⟨?_, h3⟩
    rw [h4, h2a]
    omega
  · intro ext s a v id fp qs hsp ht ha hinit hok hn hr hqs
    have h0 : init ext s
        = waitTillAsyncApiLoaded (runCallback ext) .registerSuperProperties
            { s with page := (ext id a [s.apiKey, s.config] s.page).page,
                     log := s.log ++ [.call ["init"] id a [s.apiKey, s.config]] } := by
      simp only [init, ha, callMethod, hinit, invoke, hok]
    obtain ⟨p, rid, a1, hst⟩ := check_register ext
      { s with page := (ext id a [s.apiKey, s.config] s.page).page,
               log := s.log ++ [.call ["init"] id a [s.apiKey, s.config]] } hsp hn hr
    have hget : (get ext s).state
        = { s with page := p, timers := [⟨.registerSuperProperties, 500⟩],
                   log := s.log ++ [.call ["init"] id a [s.apiKey, s.config],
                                    .callback .registerSuperProperties,
                                    .call ["register"] rid a1 [s.superProperties]] } := by
      rw [get_state, h0, hst]
      simp [ht]
    rw [hget]
    refine ⟨⟨rid, a1, rfl⟩, ?_⟩
    obtain ⟨L, hL, hcount, hall⟩ := poll_register ext qs
      { s with page := p, timers := [⟨.registerSuperProperties, 500⟩],
               log := s.log ++ [.call ["init"] id a [s.apiKey, s.config],
                                .callback .registerSuperProperties,
                                .call ["register"] rid a1 [s.superProperties]] }
      hsp rfl hqs
    refine ⟨[.call ["init"] id a [s.apiKey, s.config], .callback .registerSuperProperties,
             .call ["register"] rid a1 [s.superProperties]] ++ L, ?_, ?_, ?_⟩
    · rw [hL]; simp
    · simp only [List.filter_append, List.length_append, hcount]
      have : (List.filter (isCallVia ["register"])
          [(.call ["init"] id a [s.apiKey, s.config] : Event Callback),
           .callback .registerSuperProperties,
           .call ["register"] rid a1 [s.superProperties]]).length = 1 := rfl
      rw [this]
      omega
    · intro e he hv
      simp only [List.cons_append, List.nil_append, List.mem_cons] at he
      rcases he with rfl | rfl | rfl | he
      · have hno : isCallVia ["register"]
            (.call ["init"] id a [s.apiKey, s.config] : Event Callback) = false := rfl
        rw [hno] at hv
        exact absurd hv (by decide)
      · exact absurd hv (by simp [isCallVia])
      · exact ⟨rid, a1, rfl⟩
      · exact hall e he hv

/-- C10, on an instance: super properties `{plan: 'pro'}`; the library is
not loaded at `$get` nor at the first timer firing, and is loaded at the
second.  Three checks invoke the callback three times and leave no retry;
two checks on a library not loaded leave one retry of delay 500; `$get` and
one firing call `register` twice. -/
theorem polling_invokes_callback_on_every_check_witness :
    (callbackCount (checks (runCallback quiet) .registerSuperProperties
        ([loadingPage, loadingPage] ++ [loadedPage]) (configured loadingPage)).log = 3 ∧
      (checks (runCallback quiet) .registerSuperProperties
        ([loadingPage, loadingPage] ++ [loadedPage]) (configured loadingPage)).timers = []) ∧
    (callbackCount (checks (runCallback quiet) .registerSuperProperties
        (loadingPage :: [loadingPage]) (configured loadingPage)).log = 2 ∧
      (checks (runCallback quiet) .registerSuperProperties
        (loadingPage :: [loadingPage]) (configured loadingPage)).timers
        = [⟨.registerSuperProperties, 500⟩]) ∧
    ∃ L, (poll (runCallback quiet) [loadingPage] (get quiet (configured loadingPage)).state).log
        = (configured loadingPage).log ++ L ∧
      (L.filter (isCallVia ["register"])).length = [loadingPage].length + 1 ∧
      ∀ e ∈ L, isCallVia ["register"] e = true →
        ∃ rid this, e = .call ["register"] rid this [(configured loadingPage).superProperties] :=
  ⟨polling_invokes_callback_on_every_check.1 Callback (runCallback quiet)
      .registerSuperProperties (configured loadingPage) [loadingPage, loadingPage] loadedPage
      (runCallback_framed quiet) rfl
      (fun q hq => by
        simp only [List.mem_cons, List.mem_singleton, List.not_mem_nil, or_false] at hq
        rcases hq with rfl | rfl <;> rfl)
      rfl,
    polling_invokes_callback_on_every_check.2.1 Callback (runCallback quiet)
      .registerSuperProperties (configured loadingPage) loadingPage [loadingPage]
      (runCallback_framed quiet) rfl
      (fun q hq => by
        simp only [List.mem_cons, List.mem_singleton, List.not_mem_nil, or_false] at hq
        rcases hq with rfl | rfl <;> rfl),
    (polling_invokes_callback_on_every_check.2.2 quiet (configured loadingPage)
      (.obj [("init", .fn 0 []), ("register", .fn 2 [])]) .undefined 0 [] [loadingPage]
      rfl rfl rfl rfl rfl rfl rfl
      (fun q hq => by
        simp only [List.mem_singleton] at hq
        subst hq
        exact ⟨rfl, rfl⟩)).2⟩

theorem lookup_of_valueAt (ps : List String) (root sc : Val) {v : Val}
    (h : valueAt root ps = .ok v) :
    ∃ scope, lookup ps sc root = .ok (scope, v) ∧
      (ps ≠ [] → valueAt root ps.dropLast = .ok scope) := by
  induction ps generalizing root sc with
  | nil =>
    simp only [valueAt, Except.ok.injEq] at h
    subst h
    exact ⟨sc, rfl, fun hne => absurd rfl hne⟩
  | cons p ps ih =>
    simp only [valueAt] at h
    cases hp : getProp root p with
    | error e => simp [hp] at h
    | ok v1 =>
      simp only [hp] at h
      obtain ⟨scope, h1, h2⟩ := ih v1 root h
      refine ⟨scope, by simp only [lookup, hp, h1], fun _ => ?_⟩
      cases ps with
      | nil =>
        simp only [lookup, Except.ok.injEq, Prod.mk.injEq] at h1
        simp only [List.dropLast, valueAt, h1.1]
      | cons q qs =>
        have h3 := h2 (List.cons_ne_nil _ _)
        simp only [List.dropLast, valueAt, hp]
        exact h3

theorem valueAt_of_lookup (ps : List String) (sc root : Val) :
    (∀ e, lookup ps sc root = .error e → valueAt root ps = .error e) ∧
    (∀ scope v, lookup ps sc root = .ok (scope, v) → valueAt root ps = .ok v) := by
  induction ps generalizing root sc with
  | nil =>
    constructor
    · intro e h
      simp [lookup] at h
    · intro scope v h
      simp only [lookup, Except.ok.injEq, Prod.mk.injEq] at h
      simp [valueAt, h.2]
  | cons p ps ih =>
    cases hp : getProp root p with
    | error e1 =>
      constructor
      · intro e h
        simp only [lookup, hp, Except.error.injEq] at h
        subst h
        simp only [valueAt, hp]
      · intro scope v h
        simp [lookup, hp] at h
    | ok v1 =>
      obtain ⟨h1, h2⟩ := ih root v1
      constructor
      · intro e h
        simp only [lookup, hp] at h
        simpa only [valueAt, hp] using h1 e h
      · intro scope v h
        simp only [lookup, hp] at h
        simpa only [valueAt, hp] using h2 scope v h

theorem facade_path_ne_nil {path : List String} {name : String}
    (h : (path, name) ∈ facade) : path ≠ [] := by
  rcases facade_shape h with ⟨m, rfl⟩ | ⟨m, rfl⟩ <;> simp

theorem callFacade_forwarded {κ : Type} (ext : Ext) {path : List String} {name : String}
    (hmem : (path, name) ∈ facade) (args : List Val) (s : State κ) {id : Nat}
    {fp : List (String × Val)}
    (hres : valueAt (windowAlooma s.page) path = .ok (.fn id fp))
    (happly : fp.lookup "apply" = none) :
    ∃ scope, valueAt (windowAlooma s.page) path.dropLast = .ok scope ∧
      callFacade ext facade path args s = forwarded ext path id scope args s := by
  obtain ⟨hl, hs⟩ := facade_entry hmem
  obtain ⟨scope, h1, h2⟩ := lookup_of_valueAt path (windowAlooma s.page) Val.undefined hres
  refine ⟨scope, h2 (facade_path_ne_nil hmem), ?_⟩
  simp only [callFacade, hl, callAloomaFn, hs, h1, applyFn, readApply, happly, invoke,
    forwarded]

theorem valueAt_one {root v : Val} {m : String} (h : valueAt root [m] = .ok v) :
    getProp root m = .ok v := by
  simp only [valueAt] at h
  cases hp : getProp root m with
  | error e => simp [hp] at h
  | ok u =>
    simp only [hp, Except.ok.injEq] at h
    rw [h]

theorem valueAt_two {root v : Val} {a m : String} (h : valueAt root [a, m] = .ok v) :
    ∃ p, getProp root a = .ok p ∧ getProp p m = .ok v := by
  simp only [valueAt] at h
  cases hp : getProp root a with
  | error e => simp [hp] at h
  | ok u =>
    simp only [hp] at h
    exact ⟨u, rfl, valueAt_one (by simpa only [valueAt] using h)⟩

theorem getProp_fn_ne_undefined {scope : Val} {m : String} {id : Nat}
    {fp : List (String × Val)}
    (h : getProp scope m = .ok (.fn id fp)) : scope ≠ .undefined ∧ scope ≠ .null := by
  constructor <;> rintro rfl <;> simp [getProp] at h

/-- C1, as stated, fails: `alooma.track` is a function on which the read of
`apply` finds `undefined`, as after `alooma.track.apply = undefined`.  The
path `track` resolves to that function, yet the facade's `track('signup')`
throws a `TypeError` and the function is never called. -/
theorem facade_method_forwards_counterexample :
    valueAt (windowAlooma (shadowedPage .undefined)) ["track"]
      = .ok (.fn 5 [("apply", .undefined)]) ∧
    callFacade quiet facade ["track"] [.str "signup"] (initial Unit (shadowedPage .undefined))
      = ⟨initial Unit (shadowedPage .undefined), .error .typeError⟩ :=
  ⟨rfl, rfl⟩

/-- C1, amended: each of the 22 methods of the facade returned by `$get`,
called with any arguments in any later state in which its dotted path
resolves on `window.alooma` to a function whose `apply` is the built-in one
(no `apply` is found on the function before `Function.prototype`), makes
exactly one call into the library: of the function found at that path at call
time, with the same arguments in the same order; it returns or throws what
that function does, and changes nothing else. -/
theorem facade_method_forwards {κ : Type} (ext0 ext : Ext) (s0 : State Callback) (f : Facade)
    (hf : (get ext0 s0).result = .ok f) (path : List String) (name : String)
    (hmem : (path, name) ∈ facade) (args : List Val) (s : State κ) (id : Nat)
    (fp : List (String × Val))
    (hres : valueAt (windowAlooma s.page) path = .ok (.fn id fp))
    (happly : fp.lookup "apply" = none) :
    facade.length = 22 ∧ split name = path ∧
    ∃ scope, valueAt (windowAlooma s.page) path.dropLast = .ok scope ∧
      callFacade ext f path args s
        = ⟨{ s with page := (ext id scope args s.page).page,
                    log := s.log ++ [.call path id scope args] },
           (ext id scope args s.page).result⟩ := by
  obtain ⟨scope, h1, h2⟩ := callFacade_forwarded ext hmem args s hres happly
  rw [get_facade hf]
  exact ⟨rfl, (facade_entry hmem).2, scope, h1, h2⟩

/-- C1 amended, on an instance: the facade is built on a page whose `alooma`
has only `init`; the page is then replaced, and `people.set({plan: 'pro'})`
reaches the `people.set` of the new global, function `3`, not its `set`,
function `8`. -/
theorem facade_method_forwards_witness :
    (get quiet (initial Callback ⟨some (.obj [("init", .fn 0 [])]), 0⟩)).result = .ok facade ∧
    valueAt (windowAlooma twoSetsPage) ["people", "set"] = .ok (.fn 3 []) ∧
    (callFacade quiet facade ["people", "set"] [.obj [("plan", .str "pro")]]
        (initial Callback twoSetsPage)).state.log
      = [.call ["people", "set"] 3 (.obj [("set", .fn 3 [])]) [.obj [("plan", .str "pro")]]] := by
  refine ⟨rfl, rfl, ?_⟩
  obtain ⟨scope, h1, h2⟩ := (facade_method_forwards quiet quiet
    (initial Callback ⟨some (.obj [("init", .fn 0 [])]), 0⟩) facade rfl ["people", "set"]
    "people.set" (by simp [facade]) [.obj [("plan", .str "pro")]]
    (initial Callback twoSetsPage) 3 [] rfl rfl).2.2
  have h3 : (Except.ok (.obj [("set", .fn 3 [])]) : Except Thrown Val) = .ok scope := h1
  have h4 := Except.ok.inj h3
  subst h4
  rw [h2]
  rfl

/-- C8, as stated, fails: `alooma.track` is a function on which the read of
`apply` finds function `7`, as after `alooma.track.apply = f7`.  The path
`track` resolves to a function, yet the only call the facade's `track()`
makes has `this` bound to `alooma.track` itself, not to `window.alooma`. -/
theorem facade_method_this_counterexample :
    valueAt (windowAlooma (shadowedPage (.fn 7 []))) ["track"]
      = .ok (.fn 5 [("apply", .fn 7 [])]) ∧
    (callFacade quiet facade ["track"] [] (initial Unit (shadowedPage (.fn 7 [])))).state.log
      = [.call ["track", "apply"] 7 (.fn 5 [("apply", .fn 7 [])])
          [.obj [("track", .fn 5 [("apply", .fn 7 [])])], .obj [("length", .num 0)]]] :=
  ⟨rfl, rfl⟩

/-- C8, amended: when a facade method's path resolves at call time to a
function whose `apply` is the built-in one, the call it forwards is made with
`this` bound to the value the last segment of its path was read from:
`window.alooma` for the 15 methods with a one-segment path, and the value of
`window.alooma.people`, which is then neither `undefined` nor `null`, for the
7 methods under `people`. -/
theorem facade_method_this {κ : Type} (ext0 ext : Ext) (s0 : State Callback) (f : Facade)
    (hf : (get ext0 s0).result = .ok f) (path : List String) (name : String)
    (hmem : (path, name) ∈ facade) (args : List Val) (s : State κ) (id : Nat)
    (fp : List (String × Val))
    (hres : valueAt (windowAlooma s.page) path = .ok (.fn id fp))
    (happly : fp.lookup "apply" = none) :
    (∃ scope,
      (callFacade ext f path args s).state.log = s.log ++ [.call path id scope args] ∧
      scope ≠ .undefined ∧ scope ≠ .null ∧
      ((∃ m, path = [m] ∧ scope = windowAlooma s.page) ∨
        (∃ m, path = ["people", m] ∧
          getProp (windowAlooma s.page) "people" = .ok scope))) ∧
    (facade.filter (fun e => e.1.length == 1)).length = 15 ∧
    (facade.filter (fun e => e.1.length == 2 && e.1.head? == some "people")).length = 7 := by
  obtain ⟨scope, h1, h2⟩ := callFacade_forwarded ext hmem args s hres happly
  rw [get_facade hf, h2]
  refine ⟨⟨scope, rfl, ?_⟩, rfl, rfl⟩
  rcases facade_shape hmem with ⟨m, rfl⟩ | ⟨m, rfl⟩
  · have h3 : (Except.ok (windowAlooma s.page) : Except Thrown Val) = .ok scope := h1
    have h4 := Except.ok.inj h3
    subst h4
    obtain ⟨h5, h6⟩ := getProp_fn_ne_undefined (valueAt_one hres)
    exact ⟨h5, h6, Or.inl ⟨m, rfl, rfl⟩⟩
  · have h3 : getProp (windowAlooma s.page) "people" = .ok scope :=
      valueAt_one (by simpa only [List.dropLast] using h1)
    obtain ⟨p, h4, h5⟩ := valueAt_two hres
    rw [h3, Except.ok.injEq] at h4
    subst h4
    obtain ⟨h6, h7⟩ := getProp_fn_ne_undefined h5
    exact ⟨h6, h7, Or.inr ⟨m, rfl, h3⟩⟩

/-- C8 amended, on an instance: `facade.people.set({plan: 'pro'})` calls
`alooma.people.set` with `this` the `people` object. -/
theorem facade_method_this_witness :
    (get quiet (initial Callback ⟨some (.obj [("init", .fn 0 [])]), 0⟩)).result = .ok facade ∧
    valueAt (windowAlooma twoSetsPage) ["people", "set"] = .ok (.fn 3 []) ∧
    ∃ scope,
      (callFacade quiet facade ["people", "set"] [.obj [("plan", .str "pro")]]
          (initial Callback twoSetsPage)).state.log
        = [.call ["people", "set"] 3 scope [.obj [("plan", .str "pro")]]] ∧
      getProp (windowAlooma twoSetsPage) "people" = .ok scope := by
  refine ⟨rfl, rfl, ?_⟩
  obtain ⟨scope, h1, _, _, h2⟩ := (facade_method_this quiet quiet
    (initial Callback ⟨some (.obj [("init", .fn 0 [])]), 0⟩) facade rfl ["people", "set"]
    "people.set" (by simp [facade]) [.obj [("plan", .str "pro")]]
    (initial Callback twoSetsPage) 3 [] rfl rfl).1
  rcases h2 with ⟨m, hm, _⟩ | ⟨m, _, h3⟩
  · simp at hm
  · exact ⟨scope, h1, h3⟩

/-- C9, as stated, fails: with `alooma.track` an object that is not a
function but on which a read of `apply` finds a function, the path `track`
does not resolve to a function, yet the facade's `track()` throws nothing and
the library function `7` is called, with `this` the object and the arguments
`(alooma, arguments)`. -/
theorem facade_unresolved_counterexample :
    valueAt (windowAlooma ⟨some (.obj [("track", .obj [("apply", .fn 7 [])])]), 0⟩) ["track"]
      = .ok (.obj [("apply", .fn 7 [])]) ∧
    (callFacade quiet facade ["track"] []
        (initial Unit ⟨some (.obj [("track", .obj [("apply", .fn 7 [])])]), 0⟩)).result
      = .ok .undefined ∧
    (callFacade quiet facade ["track"] []
        (initial Unit ⟨some (.obj [("track", .obj [("apply", .fn 7 [])])]), 0⟩)).state.log
      = [.call ["track", "apply"] 7 (.obj [("apply", .fn 7 [])])
          [.obj [("track", .obj [("apply", .fn 7 [])])], .obj [("length", .num 0)]]] :=
  ⟨rfl, rfl, rfl⟩

/-- C9, amended: when a facade method's path does not resolve on
`window.alooma` to a function at call time, and a read of `apply` on what it
resolves to (if anything) finds no function, be it an own property or one
reached through the prototype chain, the call throws a `TypeError`, which
reaches the caller as it is, and the state is left as it was: no call into
the library is made. -/
theorem facade_unresolved_typeError {κ : Type} (ext0 ext : Ext) (s0 : State Callback)
    (f : Facade) (hf : (get ext0 s0).result = .ok f) (path : List String) (name : String)
    (hmem : (path, name) ∈ facade) (args : List Val) (s : State κ)
    (hres : ∀ id fp, valueAt (windowAlooma s.page) path ≠ .ok (.fn id fp))
    (happly : ∀ v id fp, valueAt (windowAlooma s.page) path = .ok v →
      getProp v "apply" ≠ .ok (.fn id fp)) :
    callFacade ext f path args s = ⟨s, .error .typeError⟩ := by
  obtain ⟨hl, hs⟩ := facade_entry hmem
  obtain ⟨herr, hok⟩ := valueAt_of_lookup path Val.undefined (windowAlooma s.page)
  rw [get_facade hf]
  simp only [callFacade, hl, callAloomaFn, hs]
  cases hlk : lookup path .undefined (windowAlooma s.page) with
  | error e => rw [lookup_error hlk]
  | ok r =>
    obtain ⟨scope, v⟩ := r
    have hv := hok scope v hlk
    have ha := happly v
    simp only [hv, forall_const] at ha
    cases v with
    | fn id fp => exact absurd hv (hres id fp)
    | undefined => rfl
    | null => rfl
    | bool b => rfl
    | num n => rfl
    | nan => rfl
    | str t => rfl
    | obj props =>
      simp only [applyFn, readApply]
      cases hm : (props.lookup "apply").getD .undefined with
      | fn id fp => exact absurd (by simp only [getProp, hm]) (ha id fp)
      | _ => rfl

/-- C9 amended, on an instance: `alooma` has no `people`, and
`facade.people.set()` throws a `TypeError` without calling anything. -/
theorem facade_unresolved_typeError_witness :
    (get quiet (initial Callback ⟨some (.obj [("init", .fn 0 [])]), 0⟩)).result = .ok facade ∧
    valueAt (windowAlooma ⟨some (.obj [("init", .fn 0 [])]), 0⟩) ["people", "set"]
      = .error .typeError ∧
    callFacade quiet facade ["people", "set"] []
        (initial Unit ⟨some (.obj [("init", .fn 0 [])]), 0⟩)
      = ⟨initial Unit ⟨some (.obj [("init", .fn 0 [])]), 0⟩, .error .typeError⟩ :=
  ⟨rfl, rfl, facade_unresolved_typeError quiet quiet
    (initial Callback ⟨some (.obj [("init", .fn 0 [])]), 0⟩) facade rfl ["people", "set"]
    "people.set" (by simp [facade]) [] (initial Unit ⟨some (.obj [("init", .fn 0 [])]), 0⟩)
    (fun id fp h => by
      have h2 : (Except.error Thrown.typeError : Except Thrown Val) = .ok (.fn id fp) := h
      cases h2)
    (fun v id fp h => by
      have h2 : (Except.error Thrown.typeError : Except Thrown Val) = .ok v := h
      cases h2)⟩

end Alooma
